import Mathlib

/-!
Verification of the index-selection engine of the `autoquery` package
(automatic DynamoDB index selection).

The Go sources are embedded shallowly: structs become structures, maps become
association lists, the float64 score and sparseness threshold become rationals
(the program only ever compares them; every score the program produces is the
literal 0.0, which rationals represent exactly), and the `(value, error)`
return convention becomes `Except` / `Option`.  Functions of the package that
are referenced by the sources but are not themselves among them
(`typesMatch`, the `tableIndex` loaders, `inferSparseness`, the primary-index
sentinel name) are modelled from the specification and say so in their doc
comments.
-/

namespace Autoquery

/-- Modelled from the spec: the concrete filter type hierarchy is not among the
sources; the spec directs to model filters as a closed set of variants and to
match on the variant tag.  Only the equals variant is distinguished by the
selector; the other variants stand for every non-equals filter kind. -/
inductive Filter where
  | equalsFilter
  | rangeFilter
  | existsFilter
deriving DecidableEq

/-- Modelled from the spec: the helper `typesMatch` is not among the sources.
It compares the dynamic type tags of two filter values; the first argument is
the result of a map lookup, and an absent entry (Go interface nil) matches
nothing. -/
def typesMatch : Option Filter → Filter → Bool
  | none, _ => false
  | some Filter.equalsFilter, Filter.equalsFilter => true
  | some Filter.rangeFilter, Filter.rangeFilter => true
  | some Filter.existsFilter, Filter.existsFilter => true
  | _, _ => false

/-- One queryable index of a table; field defaults are the Go zero values. -/
structure tableIndex where
  Name : String := ""
  PartitionKey : String := ""
  SortKey : String := ""
  Size : Int := 0
  AttributeSet : List String := []
  IncludesAllAttributes : Bool := false
  ConsistentReadable : Bool := false
  IsSparse : Bool := false
deriving DecidableEq

/-- A parsed query expression, as consumed by the selector; the filters map is
an association list from attribute name to filter variant. -/
structure Expression where
  filters : List (String × Filter) := []
  consistentRead : Bool := false
  orderSpecified : Bool := false
  orderAttribute : String := ""
  attributesSpecified : Bool := false
  attributes : List String := []
deriving DecidableEq

/-- Per-index inviability error: the index name with the ordered reasons. -/
structure ErrIndexNotViable where
  IndexName : String
  NotViableReasons : List String
deriving DecidableEq

/-- Aggregate error carrying one `ErrIndexNotViable` per rejected index. -/
structure ErrNoViableIndexes where
  IndexErrs : List ErrIndexNotViable
deriving DecidableEq

/-- Straight translation of `listIndexViabilityInfractions`: the five viability
rules, each appending at most one reason to the running list. -/
def listIndexViabilityInfractions (index : tableIndex) (expr : Expression) : List String :=
  let notViableReasons : List String := []
  let notViableReasons :=
    if !(typesMatch (expr.filters.lookup index.PartitionKey) Filter.equalsFilter) then
      notViableReasons ++
        ["expression does not contain an equals condition on attribute: " ++ index.PartitionKey]
    else notViableReasons
  let notViableReasons :=
    if expr.consistentRead && !index.ConsistentReadable then
      notViableReasons ++ ["global secondary index does not support consistent read"]
    else notViableReasons
  let notViableReasons :=
    if expr.orderSpecified && expr.orderAttribute != index.SortKey then
      notViableReasons ++
        ["expression specifies order, which requires an index with sort key: " ++ index.SortKey]
    else notViableReasons
  let notViableReasons :=
    if expr.attributesSpecified then
      let indexMissingAttrs := expr.attributes.filter (fun a => !(index.AttributeSet.contains a))
      if indexMissingAttrs.length > 0 then
        notViableReasons ++
          ["index does not include attributes: " ++ String.intercalate (", ") indexMissingAttrs]
      else notViableReasons
    else if !index.IncludesAllAttributes then
      notViableReasons ++
        ["expression does not select attributes, so it requires an index that projects all"]
    else notViableReasons
  let notViableReasons :=
    if index.IsSparse then
      if (expr.filters.lookup index.SortKey).isNone then
        notViableReasons ++
          ["expression does not filter on sparse secondary index\x27s sort key: " ++ index.SortKey]
      else notViableReasons
    else notViableReasons
  notViableReasons

/-- Rule 1 in isolation: partition-key equality. -/
def partitionKeyInfractions (index : tableIndex) (expr : Expression) : List String :=
  if !(typesMatch (expr.filters.lookup index.PartitionKey) Filter.equalsFilter) then
    ["expression does not contain an equals condition on attribute: " ++ index.PartitionKey]
  else []

/-- Rule 2 in isolation: consistent-readability. -/
def consistencyInfractions (index : tableIndex) (expr : Expression) : List String :=
  if expr.consistentRead && !index.ConsistentReadable then
    ["global secondary index does not support consistent read"]
  else []

/-- Rule 3 in isolation: ordering requires the index's sort key. -/
def orderingInfractions (index : tableIndex) (expr : Expression) : List String :=
  if expr.orderSpecified && expr.orderAttribute != index.SortKey then
    ["expression specifies order, which requires an index with sort key: " ++ index.SortKey]
  else []

/-- Rule 4 in isolation: attribute coverage. -/
def attributeInfractions (index : tableIndex) (expr : Expression) : List String :=
  if expr.attributesSpecified then
    let indexMissingAttrs := expr.attributes.filter (fun a => !(index.AttributeSet.contains a))
    if indexMissingAttrs.length > 0 then
      ["index does not include attributes: " ++ String.intercalate (", ") indexMissingAttrs]
    else []
  else if !index.IncludesAllAttributes then
    ["expression does not select attributes, so it requires an index that projects all"]
  else []

/-- Rule 5 in isolation: a sparse index needs some filter on its sort key. -/
def sparsenessInfractions (index : tableIndex) (expr : Expression) : List String :=
  if index.IsSparse then
    if (expr.filters.lookup index.SortKey).isNone then
      ["expression does not filter on sparse secondary index\x27s sort key: " ++ index.SortKey]
    else []
  else []

/-- Modelled from the spec: the sentinel constant is not among the sources; the
spec only requires a reserved name distinct from any real secondary-index
name. -/
def tablePrimaryIndexName : String := "\x23primary"

/-- One element of a key schema, as delivered by the metadata provider. -/
structure KeySchemaElement where
  AttributeName : String
  KeyType : String
deriving DecidableEq

/-- Projection policy variants of a secondary index. -/
inductive ProjectionKind where
  | projectAll
  | keysOnly
  | includeAttrs
deriving DecidableEq

/-- Projection descriptor of a secondary index. -/
structure Projection where
  ProjectionType : ProjectionKind
  NonKeyAttributes : List String := []
deriving DecidableEq

/-- Descriptor of one secondary index inside a table description. -/
structure SecondaryIndexDescription where
  IndexName : String
  ItemCount : Int := 0
  KeySchema : List KeySchemaElement := []
  Projection : Projection
deriving DecidableEq

/-- Raw table description delivered by the metadata provider. -/
structure TableDescription where
  ItemCount : Int := 0
  KeySchema : List KeySchemaElement := []
  GlobalSecondaryIndexes : List SecondaryIndexDescription := []
  LocalSecondaryIndexes : List SecondaryIndexDescription := []
deriving DecidableEq

/-- Modelled from the spec: `tableIndex.loadKeysFromSchema` is not among the
sources; the spec says the partition key is the HASH-type key element and the
sort key the RANGE-type element if present. -/
def tableIndex.loadKeysFromSchema (index : tableIndex) (schema : List KeySchemaElement) :
    tableIndex :=
  let pk :=
    match schema.find? (fun e => e.KeyType == ("HASH")) with
    | some e => e.AttributeName
    | none => index.PartitionKey
  let sk :=
    match schema.find? (fun e => e.KeyType == ("RANGE")) with
    | some e => e.AttributeName
    | none => index.SortKey
  { index with PartitionKey := pk, SortKey := sk }

/-- Modelled from the spec: `tableIndex.getKeys` is not among the sources; it
returns the index's key attribute names, the sort key only when present. -/
def tableIndex.getKeys (index : tableIndex) : List String :=
  if index.SortKey == ("") then [index.PartitionKey] else [index.PartitionKey, index.SortKey]

/-- Modelled from the spec: `tableIndex.loadAttributesFromProjection` is not
among the sources; the spec says an ALL projection gives all-attributes, while
KEYS_ONLY and INCLUDE give an explicit attribute set equal to the projected
attributes together with the table's primary-index keys. -/
def tableIndex.loadAttributesFromProjection (index : tableIndex) (proj : Projection)
    (tablePrimaryIndexKeys : List String) : tableIndex :=
  match proj.ProjectionType with
  | ProjectionKind.projectAll => { index with IncludesAllAttributes := true }
  | ProjectionKind.keysOnly =>
      { index with AttributeSet := index.getKeys ++ tablePrimaryIndexKeys }
  | ProjectionKind.includeAttrs =>
      { index with AttributeSet := proj.NonKeyAttributes ++ index.getKeys ++ tablePrimaryIndexKeys }

/-- Modelled from the spec: `tableIndex.inferSparseness` is not among the
sources; the spec and the client's doc comment say a secondary index is
non-sparse exactly when the quotient of its item count by the table's item
count is at least the sparseness threshold. -/
def tableIndex.inferSparseness (index : tableIndex) (tableSize : Int) (threshold : ℚ) :
    tableIndex :=
  { index with IsSparse := !(decide (threshold ≤ (index.Size : ℚ) / (tableSize : ℚ))) }

/-- The full index set of one table, in parse order. -/
structure tableIndexMetadata where
  Indexes : List tableIndex
deriving DecidableEq

/-- The primary index built by `parseTableIndexMetadata` before the secondary
indexes are appended. -/
def parsePrimaryIndex (table : TableDescription) : tableIndex :=
  ({ Name := tablePrimaryIndexName
     Size := table.ItemCount
     IncludesAllAttributes := true
     ConsistentReadable := true
     IsSparse := false } : tableIndex).loadKeysFromSchema table.KeySchema

/-- Body of the global-secondary-index loop of `parseTableIndexMetadata`. -/
def parseGSI (threshold : ℚ) (tableSize : Int) (tablePrimaryIndexKeys : List String)
    (gsi : SecondaryIndexDescription) : tableIndex :=
  ((({ Name := gsi.IndexName
       Size := gsi.ItemCount
       ConsistentReadable := false } : tableIndex).loadKeysFromSchema
      gsi.KeySchema).loadAttributesFromProjection gsi.Projection
      tablePrimaryIndexKeys).inferSparseness tableSize threshold

/-- Body of the local-secondary-index loop of `parseTableIndexMetadata`; the
initial `IsSparse := true` is overwritten by `inferSparseness`, as in the
source. -/
def parseLSI (threshold : ℚ) (tableSize : Int) (tablePrimaryIndexKeys : List String)
    (lsi : SecondaryIndexDescription) : tableIndex :=
  ((({ Name := lsi.IndexName
       Size := lsi.ItemCount
       ConsistentReadable := true
       IsSparse := true } : tableIndex).loadKeysFromSchema
      lsi.KeySchema).loadAttributesFromProjection lsi.Projection
      tablePrimaryIndexKeys).inferSparseness tableSize threshold

/-- Translation of the client method `parseTableIndexMetadata`: primary index
first, then the global secondary indexes, then the local secondary indexes. -/
def parseTableIndexMetadata (threshold : ℚ) (table : TableDescription) : tableIndexMetadata :=
  let tablePrimaryIndex := parsePrimaryIndex table
  let tablePrimaryIndexKeys := tablePrimaryIndex.getKeys
  { Indexes :=
      [tablePrimaryIndex]
        ++ table.GlobalSecondaryIndexes.map
            (parseGSI threshold table.ItemCount tablePrimaryIndexKeys)
        ++ table.LocalSecondaryIndexes.map
            (parseLSI threshold table.ItemCount tablePrimaryIndexKeys) }

/-- The client's table-metadata cache, keyed by table name. -/
abbrev MetadataCache := List (String × tableIndexMetadata)

/-- Translation of `Client.pullIndexMetadata`.  The provider stands for the
client's `metadataProvider.Get`; the returned Bool records whether the
provider was called, so that cache hits are observably provider-free. -/
def pullIndexMetadata (provider : String → Except String TableDescription) (threshold : ℚ)
    (cache : MetadataCache) (tableName : String) :
    Except String tableIndexMetadata × MetadataCache × Bool :=
  match cache.lookup tableName with
  | some indexMetadata => (Except.ok indexMetadata, cache, false)
  | none =>
    match provider tableName with
    | Except.error e => (Except.error e, cache, true)
    | Except.ok tableDescription =>
      let indexMetadata := parseTableIndexMetadata threshold tableDescription
      (Except.ok indexMetadata, (tableName, indexMetadata) :: cache, true)

/-- Translation of `Client.scoreIndexOnExpr`.  Note the source returns an
`ErrIndexNotViable` in both branches: when the infraction list is empty it
still reports a "not yet implemented" inviability. -/
def scoreIndexOnExpr (index : tableIndex) (expr : Expression) : ℚ × Option ErrIndexNotViable :=
  let indexNotViableReasons := listIndexViabilityInfractions index expr
  if indexNotViableReasons.length > 0 then
    (0, some { IndexName := index.Name, NotViableReasons := indexNotViableReasons })
  else
    (0, some { IndexName := index.Name, NotViableReasons := ["not yet implemented"] })

/-- Errors `chooseIndex` can return: a propagated provider error or the
aggregate no-viable-indexes error. -/
inductive ChooseError where
  | metadataError : String → ChooseError
  | noViableIndexes : ErrNoViableIndexes → ChooseError
deriving DecidableEq

/-- Accumulator of the selection loop of `chooseIndex`. -/
structure chooseAcc where
  bestIndex : Option tableIndex
  bestIndexScore : ℚ
  inviableErrs : List ErrIndexNotViable

/-- One iteration of the selection loop of `chooseIndex`. -/
def chooseStep (expr : Expression) (acc : chooseAcc) (index : tableIndex) : chooseAcc :=
  let r := scoreIndexOnExpr index expr
  match r.2 with
  | some inviableErr => { acc with inviableErrs := acc.inviableErrs ++ [inviableErr] }
  | none =>
    if acc.bestIndexScore < r.1 then
      { bestIndex := some index, bestIndexScore := r.1, inviableErrs := acc.inviableErrs }
    else acc

/-- Translation of `Client.chooseIndex`: pull metadata, score every index,
return the best strictly-positive-scoring viable index or the aggregate
error. -/
def chooseIndex (provider : String → Except String TableDescription) (threshold : ℚ)
    (cache : MetadataCache) (tableName : String) (expr : Expression) :
    Except ChooseError tableIndex × MetadataCache :=
  match pullIndexMetadata provider threshold cache tableName with
  | (Except.error e, cache2, _) => (Except.error (ChooseError.metadataError e), cache2)
  | (Except.ok indexMetadata, cache2, _) =>
    let acc := indexMetadata.Indexes.foldl (chooseStep expr)
      { bestIndex := none, bestIndexScore := 0, inviableErrs := [] }
    match acc.bestIndex with
    | none => (Except.error (ChooseError.noViableIndexes { IndexErrs := acc.inviableErrs }), cache2)
    | some bestIndex => (Except.ok bestIndex, cache2)

/-- Shared helper: the accumulated infraction list is the concatenation of the
five rules' individual infraction lists, in source order. -/
theorem listIndexViabilityInfractions_decomp (index : tableIndex) (expr : Expression) :
    listIndexViabilityInfractions index expr =
      partitionKeyInfractions index expr ++ consistencyInfractions index expr ++
      orderingInfractions index expr ++ attributeInfractions index expr ++
      sparsenessInfractions index expr := by
  simp only [listIndexViabilityInfractions, partitionKeyInfractions, consistencyInfractions,
    orderingInfractions, attributeInfractions, sparsenessInfractions]
  repeat' split
  all_goals simp

/-- C4: the viability analysis evaluates all five rules independently and
collects every violation without short-circuiting; the reason list is always
the concatenation, in the fixed order partition-key equality, consistency,
ordering, attribute coverage, sparseness, of the individual rules'
infractions, so the same index and expression always yield the same reason
sequence. -/
theorem infractions_fixed_rule_order (index : tableIndex) (expr : Expression) :
    listIndexViabilityInfractions index expr =
      partitionKeyInfractions index expr ++ consistencyInfractions index expr ++
      orderingInfractions index expr ++ attributeInfractions index expr ++
      sparsenessInfractions index expr :=
  listIndexViabilityInfractions_decomp index expr

/-- C10: the viability analysis returns at most one reason per rule, hence at
most five reason strings in total; in particular attribute coverage produces
at most one combined message. -/
theorem infractions_at_most_five (index : tableIndex) (expr : Expression) :
    (partitionKeyInfractions index expr).length ≤ 1 ∧
    (consistencyInfractions index expr).length ≤ 1 ∧
    (orderingInfractions index expr).length ≤ 1 ∧
    (attributeInfractions index expr).length ≤ 1 ∧
    (sparsenessInfractions index expr).length ≤ 1 ∧
    (listIndexViabilityInfractions index expr).length ≤ 5 := by
  have h1 : (partitionKeyInfractions index expr).length ≤ 1 := by
    simp only [partitionKeyInfractions]
    split <;> simp
  have h2 : (consistencyInfractions index expr).length ≤ 1 := by
    simp only [consistencyInfractions]
    split <;> simp
  have h3 : (orderingInfractions index expr).length ≤ 1 := by
    simp only [orderingInfractions]
    split <;> simp
  have h4 : (attributeInfractions index expr).length ≤ 1 := by
    simp only [attributeInfractions]
    repeat' split
    all_goals simp
  have h5 : (sparsenessInfractions index expr).length ≤ 1 := by
    simp only [sparsenessInfractions]
    repeat' split
    all_goals simp
  refine ⟨h1, h2, h3, h4, h5, ?_⟩
  rw [listIndexViabilityInfractions_decomp]
  simp only [List.length_append]
  omega

/-- C9: when the expression sets attributesSpecified with an empty attribute
list, the attribute-coverage rule raises no infraction, whatever the index's
attribute set and IncludesAllAttributes flag: the all-attributes fallback
applies only when attributesSpecified is false. -/
theorem attributeCoverage_emptySelection (index : tableIndex) (expr : Expression)
    (h1 : expr.attributesSpecified = true) (h2 : expr.attributes = []) :
    listIndexViabilityInfractions index expr =
      partitionKeyInfractions index expr ++ consistencyInfractions index expr ++
      orderingInfractions index expr ++ sparsenessInfractions index expr := by
  rw [listIndexViabilityInfractions_decomp]
  simp [attributeInfractions, h1, h2]

/-- Witness for C9: an index that neither includes all attributes nor projects
any attribute receives no coverage infraction for an empty explicit
selection. -/
theorem attributeCoverage_emptySelection_witness :
    listIndexViabilityInfractions
        ({ Name := ("i"), PartitionKey := ("pk") } : tableIndex)
        ({ filters := [(("pk"), Filter.equalsFilter)], attributesSpecified := true } :
          Expression) = [] := by
  rw [attributeCoverage_emptySelection _ _ rfl rfl]
  rfl

/-- C5: for a sparse index the analysis raises the sparseness infraction
naming the index's sort key exactly when the expression's filters carry no
entry for the sort key; a filter of any kind on the sort key satisfies the
rule. -/
theorem sparsenessRule_filters_sortKey (index : tableIndex) (expr : Expression)
    (h : index.IsSparse = true) :
    listIndexViabilityInfractions index expr =
      partitionKeyInfractions index expr ++ consistencyInfractions index expr ++
      orderingInfractions index expr ++ attributeInfractions index expr ++
      (if (expr.filters.lookup index.SortKey).isNone then
        ["expression does not filter on sparse secondary index\x27s sort key: " ++ index.SortKey]
      else []) := by
  rw [listIndexViabilityInfractions_decomp]
  simp [sparsenessInfractions, h]

/-- Witness for C5: a sparse index with a non-equals filter on its sort key
passes the sparseness rule, while dropping that filter yields the infraction
naming the sort key. -/
theorem sparsenessRule_filters_sortKey_witness :
    listIndexViabilityInfractions
        ({ Name := ("g"), PartitionKey := ("gp"), SortKey := ("gs"),
           IncludesAllAttributes := true, IsSparse := true } : tableIndex)
        ({ filters := [(("gp"), Filter.equalsFilter), (("gs"), Filter.rangeFilter)] } :
          Expression) = [] ∧
    listIndexViabilityInfractions
        ({ Name := ("g"), PartitionKey := ("gp"), SortKey := ("gs"),
           IncludesAllAttributes := true, IsSparse := true } : tableIndex)
        ({ filters := [(("gp"), Filter.equalsFilter)] } : Expression) =
      ["expression does not filter on sparse secondary index\x27s sort key: gs"] := by
  constructor
  · rw [sparsenessRule_filters_sortKey _ _ rfl]
    rfl
  · rw [sparsenessRule_filters_sortKey _ _ rfl]
    rfl

/-- C2 counterexample: the primary index has IncludesAllAttributes true and an
empty AttributeSet, and the expression explicitly selects the single attribute
a, which the IncludesAllAttributes flag should cover according to the claim;
the analysis nevertheless raises the coverage infraction, because the
explicit-selection branch consults only AttributeSet. -/
theorem attributeCoverage_includesAll_counterexample :
    (({ Name := tablePrimaryIndexName, PartitionKey := ("pk"), IncludesAllAttributes := true,
        ConsistentReadable := true } : tableIndex).IncludesAllAttributes = true) ∧
    listIndexViabilityInfractions
        ({ Name := tablePrimaryIndexName, PartitionKey := ("pk"), IncludesAllAttributes := true,
           ConsistentReadable := true } : tableIndex)
        ({ filters := [(("pk"), Filter.equalsFilter)], attributesSpecified := true,
           attributes := [("a")] } : Expression) =
      ["index does not include attributes: a"] :=
  ⟨rfl, rfl⟩

/-- C2 amended: when the expression explicitly selects attributes, the
coverage rule consults only AttributeSet membership; it raises no infraction
exactly when every selected attribute is in the index's AttributeSet, and
otherwise exactly one combined infraction naming each missing attribute.
IncludesAllAttributes is not consulted in this branch. -/
theorem attributeCoverage_attributeSet_only (index : tableIndex) (expr : Expression)
    (h : expr.attributesSpecified = true) :
    listIndexViabilityInfractions index expr =
      partitionKeyInfractions index expr ++ consistencyInfractions index expr ++
      orderingInfractions index expr ++
      (if expr.attributes.all (fun a => index.AttributeSet.contains a) then []
       else ["index does not include attributes: " ++ String.intercalate (", ")
          (expr.attributes.filter (fun a => !(index.AttributeSet.contains a)))]) ++
      sparsenessInfractions index expr := by
  rw [listIndexViabilityInfractions_decomp]
  have hattr : attributeInfractions index expr =
      (if expr.attributes.all (fun a => index.AttributeSet.contains a) then []
       else ["index does not include attributes: " ++ String.intercalate (", ")
          (expr.attributes.filter (fun a => !(index.AttributeSet.contains a)))]) := by
    simp only [attributeInfractions, h, if_true]
    have hiff : (expr.attributes.filter (fun a => !(index.AttributeSet.contains a)) = []) ↔
        (expr.attributes.all (fun a => index.AttributeSet.contains a) = true) := by
      rw [List.filter_eq_nil_iff, List.all_eq_true]
      constructor
      · intro hf a ha
        have hfa := hf a ha
        simpa using hfa
      · intro hf a ha
        simpa using hf a ha
    by_cases hall : expr.attributes.all (fun a => index.AttributeSet.contains a) = true
    · rw [if_pos hall]
      have hfil := hiff.mpr hall
      rw [hfil]
      simp
    · rw [if_neg hall]
      have hne : expr.attributes.filter (fun a => !(index.AttributeSet.contains a)) ≠ [] :=
        fun hnil => hall (hiff.mp hnil)
      rw [if_pos (List.length_pos.mpr hne)]
  rw [hattr]

/-- Witness for the amended C2: an index projecting only a receives exactly
one combined infraction naming b for the explicit selection a, b. -/
theorem attributeCoverage_attributeSet_only_witness :
    listIndexViabilityInfractions
        ({ Name := ("i"), PartitionKey := ("pk"), AttributeSet := [("a")] } : tableIndex)
        ({ filters := [(("pk"), Filter.equalsFilter)], attributesSpecified := true,
           attributes := [("a"), ("b")] } : Expression) =
      ["index does not include attributes: b"] := by
  rw [attributeCoverage_attributeSet_only _ _ rfl]
  rfl

/-- C1: Scenario A evaluated on the code.  For a table whose only index is the
primary index with partition key pk and an expression carrying an equals
filter on pk, the infraction list is empty, yet chooseIndex does not return
the primary index: the stubbed scorer reports every infraction-free index as
inviable with reason "not yet implemented", so chooseIndex returns the
aggregate no-viable-indexes error. -/
theorem chooseIndex_scenarioA_stub_rejects_primary :
    listIndexViabilityInfractions
        ({ Name := tablePrimaryIndexName, PartitionKey := ("pk"), IncludesAllAttributes := true,
           ConsistentReadable := true } : tableIndex)
        ({ filters := [(("pk"), Filter.equalsFilter)] } : Expression) = [] ∧
    chooseIndex (fun _ => Except.error ("unused")) 1.1
        [(("T"),
          { Indexes := [{ Name := tablePrimaryIndexName, PartitionKey := ("pk"),
                          IncludesAllAttributes := true, ConsistentReadable := true }] })]
        ("T") ({ filters := [(("pk"), Filter.equalsFilter)] } : Expression) =
      (Except.error (ChooseError.noViableIndexes
        { IndexErrs := [{ IndexName := tablePrimaryIndexName,
                          NotViableReasons := [("not yet implemented")] }] }),
       [(("T"),
          { Indexes := [{ Name := tablePrimaryIndexName, PartitionKey := ("pk"),
                          IncludesAllAttributes := true, ConsistentReadable := true }] })]) :=
  ⟨rfl, rfl⟩

/-- C3: tie evaluation on the code.  With cached metadata holding the primary
index first and a secondary index second, both infraction-free on the given
expression (hence score-tied at the stub's 0.0), chooseIndex does not return
the primary index: both are reported inviable with "not yet implemented" and
the aggregate error is returned, the strict-inequality comparison never
promoting a candidate. -/
theorem chooseIndex_tie_stub_rejects_all :
    listIndexViabilityInfractions
        ({ Name := tablePrimaryIndexName, PartitionKey := ("pk"), IncludesAllAttributes := true,
           ConsistentReadable := true } : tableIndex)
        ({ filters := [(("pk"), Filter.equalsFilter), (("gsiPk"), Filter.equalsFilter)] } :
          Expression) = [] ∧
    listIndexViabilityInfractions
        ({ Name := ("gsi1"), PartitionKey := ("gsiPk"), IncludesAllAttributes := true } :
          tableIndex)
        ({ filters := [(("pk"), Filter.equalsFilter), (("gsiPk"), Filter.equalsFilter)] } :
          Expression) = [] ∧
    chooseIndex (fun _ => Except.error ("unused")) 1.1
        [(("T"),
          { Indexes := [{ Name := tablePrimaryIndexName, PartitionKey := ("pk"),
                          IncludesAllAttributes := true, ConsistentReadable := true },
                        { Name := ("gsi1"), PartitionKey := ("gsiPk"),
                          IncludesAllAttributes := true }] })]
        ("T")
        ({ filters := [(("pk"), Filter.equalsFilter), (("gsiPk"), Filter.equalsFilter)] } :
          Expression) =
      (Except.error (ChooseError.noViableIndexes
        { IndexErrs := [{ IndexName := tablePrimaryIndexName,
                          NotViableReasons := [("not yet implemented")] },
                        { IndexName := ("gsi1"),
                          NotViableReasons := [("not yet implemented")] }] }),
       [(("T"),
          { Indexes := [{ Name := tablePrimaryIndexName, PartitionKey := ("pk"),
                          IncludesAllAttributes := true, ConsistentReadable := true },
                        { Name := ("gsi1"), PartitionKey := ("gsiPk"),
                          IncludesAllAttributes := true }] })]) :=
  ⟨rfl, rfl, rfl⟩

/-- C7: on a cache hit pullIndexMetadata returns the cached metadata with the
cache unchanged and without calling the provider; on a miss it calls the
provider, propagating an error unchanged and leaving the cache untouched, and
storing the parsed metadata under the table name only on success. -/
theorem pullIndexMetadata_cache_contract (provider : String → Except String TableDescription)
    (threshold : ℚ) (cache : MetadataCache) (tableName : String) :
    (∀ m, cache.lookup tableName = some m →
      pullIndexMetadata provider threshold cache tableName = (Except.ok m, cache, false)) ∧
    (∀ e, cache.lookup tableName = none → provider tableName = Except.error e →
      pullIndexMetadata provider threshold cache tableName = (Except.error e, cache, true)) ∧
    (∀ d, cache.lookup tableName = none → provider tableName = Except.ok d →
      pullIndexMetadata provider threshold cache tableName =
        (Except.ok (parseTableIndexMetadata threshold d),
         (tableName, parseTableIndexMetadata threshold d) :: cache, true)) := by
  refine ⟨?_, ?_, ?_⟩
  · intro m hm
    simp [pullIndexMetadata, hm]
  · intro e hn he
    simp [pullIndexMetadata, hn, he]
  · intro d hn hd
    simp [pullIndexMetadata, hn, hd]

/-- Witness for C7: a concrete cache hit ignores a failing provider, and a
concrete miss propagates the provider's error with the cache unchanged. -/
theorem pullIndexMetadata_cache_contract_witness :
    (pullIndexMetadata (fun _ => Except.error ("boom")) 1.1
        [(("T"), ({ Indexes := [] } : tableIndexMetadata))] ("T") =
      (Except.ok ({ Indexes := [] } : tableIndexMetadata),
       [(("T"), ({ Indexes := [] } : tableIndexMetadata))], false)) ∧
    (pullIndexMetadata (fun _ => Except.error ("boom")) 1.1 [] ("T") =
      (Except.error ("boom"), [], true)) :=
  ⟨(pullIndexMetadata_cache_contract (fun _ => Except.error ("boom")) 1.1
      [(("T"), ({ Indexes := [] } : tableIndexMetadata))] ("T")).1 _ rfl,
   (pullIndexMetadata_cache_contract (fun _ => Except.error ("boom")) 1.1 [] ("T")).2.1
      ("boom") rfl rfl⟩

/-- C6: sparseness of parsed secondary indexes.  With nonnegative index size
at most the table size and a positive table size: the index is non-sparse
exactly when the size quotient reaches the threshold; a nonpositive threshold
makes it non-sparse; threshold exactly 1 makes it non-sparse exactly when the
counts are equal; a threshold above 1 makes it sparse.  The primary index
built by the parser always has IsSparse false and stands first, and both
secondary-index parsers compute IsSparse by this quotient comparison. -/
theorem inferSparseness_threshold_spec (threshold : ℚ) (index : tableIndex) (tableSize : Int) :
    (0 ≤ index.Size → index.Size ≤ tableSize → 0 < tableSize →
      (((index.inferSparseness tableSize threshold).IsSparse = false ↔
          threshold ≤ (index.Size : ℚ) / (tableSize : ℚ)) ∧
       (threshold ≤ 0 → (index.inferSparseness tableSize threshold).IsSparse = false) ∧
       (threshold = 1 →
         ((index.inferSparseness tableSize threshold).IsSparse = false ↔
           index.Size = tableSize)) ∧
       (1 < threshold → (index.inferSparseness tableSize threshold).IsSparse = true))) ∧
    (∀ table : TableDescription,
      (parsePrimaryIndex table).IsSparse = false ∧
      (parseTableIndexMetadata threshold table).Indexes.head? = some (parsePrimaryIndex table)) ∧
    (∀ (keys : List String) (gsi : SecondaryIndexDescription),
      (parseGSI threshold tableSize keys gsi).IsSparse =
        !(decide (threshold ≤ (gsi.ItemCount : ℚ) / (tableSize : ℚ)))) ∧
    (∀ (keys : List String) (lsi : SecondaryIndexDescription),
      (parseLSI threshold tableSize keys lsi).IsSparse =
        !(decide (threshold ≤ (lsi.ItemCount : ℚ) / (tableSize : ℚ)))) := by
  refine ⟨?_, ?_, ?_, ?_⟩
  · intro h0 h1 h2
    have ht : (0 : ℚ) < (tableSize : ℚ) := by exact_mod_cast h2
    have hs : (0 : ℚ) ≤ (index.Size : ℚ) := by exact_mod_cast h0
    have hle : (index.Size : ℚ) ≤ (tableSize : ℚ) := by exact_mod_cast h1
    have hred : ∀ t : ℚ, ((index.inferSparseness tableSize t).IsSparse = false) ↔
        t ≤ (index.Size : ℚ) / (tableSize : ℚ) := by
      intro t
      simp [tableIndex.inferSparseness]
    refine ⟨hred threshold, ?_, ?_, ?_⟩
    · intro hth
      exact (hred threshold).mpr (le_trans hth (div_nonneg hs ht.le))
    · intro hth
      subst hth
      rw [hred 1, one_le_div ht]
      constructor
      · intro hge
        exact le_antisymm h1 (by exact_mod_cast hge)
      · intro heq
        exact le_of_eq (by exact_mod_cast heq.symm)
    · intro hth
      have hlt : (index.Size : ℚ) / (tableSize : ℚ) < threshold :=
        lt_of_le_of_lt ((div_le_one ht).mpr hle) hth
      have hnot : ¬ ((index.inferSparseness tableSize threshold).IsSparse = false) := by
        rw [hred threshold]
        exact not_le.mpr hlt
      cases hb : (index.inferSparseness tableSize threshold).IsSparse
      · exact absurd hb hnot
      · rfl
  · intro table
    exact ⟨rfl, rfl⟩
  · intro keys gsi
    rcases gsi with ⟨n, c, ks, ⟨pt, nka⟩⟩
    cases pt <;> rfl
  · intro keys lsi
    rcases lsi with ⟨n, c, ks, ⟨pt, nka⟩⟩
    cases pt <;> rfl

/-- Witness for C6: with threshold exactly 1 a secondary index whose size
equals the table size is non-sparse, and one item fewer makes it sparse. -/
theorem inferSparseness_threshold_spec_witness :
    (({ Size := 5 } : tableIndex).inferSparseness 5 1).IsSparse = false ∧
    (({ Size := 4 } : tableIndex).inferSparseness 5 1).IsSparse = true := by
  constructor
  · have h := (inferSparseness_threshold_spec 1 ({ Size := 5 } : tableIndex) 5).1
      (by norm_num) (by norm_num) (by norm_num)
    exact (h.2.2.1 rfl).mpr rfl
  · have h := (inferSparseness_threshold_spec 1 ({ Size := 4 } : tableIndex) 5).1
      (by norm_num) (by norm_num) (by norm_num)
    have h2 := h.2.2.1 rfl
    cases hb : (({ Size := 4 } : tableIndex).inferSparseness 5 1).IsSparse
    · exact absurd (h2.mp hb) (by decide)
    · rfl

end Autoquery
